import Mathlib

/-!
Verification of the batched CloudFront-invalidation pipeline of
`supabase-on-aws` (`src/supabase-cdn.ts`).

The repository file under verification is CDK resource wiring: it fixes the
configuration of the SQS queue, the SQS event source of the consumer
function, the IAM grants, the CloudFront cache policy and the error
responses.  The two Lambda handlers the wiring points at
(`./src/functions/cdn-cache-manager/api.ts` and
`./src/functions/cdn-cache-manager/queue-consumer.ts`) are not part of the
snapshot; their behavior is modelled from the specification and marked
`Modelled from the spec:` below.  The semantics of the external managed
services (SQS redelivery, CloudFront TTL clamping and error caching) are
modelled from their documented behavior, applied to the exact configuration
values taken from the source.
-/

/-- Redrive target of an SQS queue: the dead-letter queue together with the
`maxReceiveCount` after which a message is moved there. -/
structure DeadLetterTarget where
  maxReceiveCount : Nat
deriving Repr, DecidableEq

/-- The configuration of an SQS queue, restricted to the fields the claims
depend on: the optional redrive policy and the visibility timeout. -/
structure QueueConfig where
  deadLetterQueue : Option DeadLetterTarget
  visibilityTimeoutSeconds : Nat
deriving Repr, DecidableEq

/-- The queue of the CacheManager, `new sqs.Queue(this, 'Queue')` at
src/supabase-cdn.ts:141.  Every prop is left at its default: in particular no
`deadLetterQueue` (redrive policy) is configured, and the SQS default
visibility timeout is 30 seconds. -/
def cacheManagerQueue : QueueConfig :=
  { deadLetterQueue := none, visibilityTimeoutSeconds := 30 }

/-- Configuration of the `SqsEventSource` that drives the queue consumer. -/
structure SqsEventSourceConfig where
  batchSize : Nat
  maxBatchingWindowSeconds : Nat
deriving Repr, DecidableEq

/-- `new SqsEventSource(queue, { batchSize: 100, maxBatchingWindow:
cdk.Duration.seconds(5) })` at src/supabase-cdn.ts:176. -/
def queueConsumerEventSource : SqsEventSourceConfig :=
  { batchSize := 100, maxBatchingWindowSeconds := 5 }

/-- Terminal or intermediate fate of one delivered message after one
consumption attempt. -/
inductive MsgFate where
  | acknowledged
  | redelivered
  | deadLettered
deriving Repr, DecidableEq

/-- SQS semantics: the fate of a leased message that the consumer did NOT
delete, given how often it has been received.  A message is moved to a
dead-letter queue only by the queue's own redrive policy
(`deadLetterQueue`/`maxReceiveCount`); with no redrive policy configured it
simply becomes visible again and is redelivered. -/
def nackFate (q : QueueConfig) (receiveCount : Nat) : MsgFate :=
  match q.deadLetterQueue with
  | some target =>
      if target.maxReceiveCount ≤ receiveCount then MsgFate.deadLettered
      else MsgFate.redelivered
  | none => MsgFate.redelivered

/-- SQS semantics: the fate of a leased message after one consumption
attempt: deleted messages are acknowledged, the rest follow `nackFate`. -/
def msgFate (q : QueueConfig) (deleted : Bool) (receiveCount : Nat) : MsgFate :=
  if deleted then MsgFate.acknowledged else nackFate q receiveCount

/-- SQS semantics: a message leased at `leasedAt` and not deleted becomes
visible again (redeliverable) once the visibility timeout has elapsed. -/
def visibleAgainAt (q : QueueConfig) (leasedAt : Nat) : Nat :=
  leasedAt + q.visibilityTimeoutSeconds

/-- One queue message as delivered to the consumer: the invalidation path it
carries, its opaque delivery handle, and the queue's receive count. -/
structure Message where
  path : String
  handle : Nat
  receiveCount : Nat
deriving Repr, DecidableEq

/-- A closed batch: the deduplicated path set and the contributing
messages. -/
structure Batch where
  paths : List String
  members : List Message
deriving Repr, DecidableEq

/-- Modelled from the spec: the BatchAssembler of
`functions/cdn-cache-manager/queue-consumer.ts` (not in the snapshot)
deduplicates the validated paths of the drained messages into `paths`
(insertion order irrelevant); each distinct path keeps every contributing
delivery handle in `members`. -/
def dedupPaths : List Message → List String
  | [] => []
  | m :: rest =>
      if m.path ∈ dedupPaths rest then dedupPaths rest
      else m.path :: dedupPaths rest

/-- SQS event-source semantics: one poll hands the consumer at most
`batchSize` of the pending messages. -/
def drainedMessages (cfg : SqsEventSourceConfig) (pending : List Message) : List Message :=
  pending.take cfg.batchSize

/-- Modelled from the spec: the BatchAssembler closes a batch over the
drained messages — deduplicated paths plus all contributing members — and
produces no batch at all from an empty drain (the executor is only invoked
on `some`). -/
def assembleBatch (msgs : List Message) : Option Batch :=
  match msgs with
  | [] => none
  | _ => some { paths := dedupPaths msgs, members := msgs }

/-- Per-message action requested by the executor through the queue-adapter
contract (`acknowledge`, `deadLetter`, or neither). -/
inductive MsgAction where
  | ack
  | deadLetter
  | leave
deriving Repr, DecidableEq

/-- Result of one provider call
(`cloudfront:CreateInvalidation`): full success, rejection of a subset of
the paths as permanently invalid, or a whole-call transient failure (rate
limit / timeout / network). -/
inductive ProviderResult where
  | success (invalidationId : Nat)
  | rejected (failedPaths : List String)
  | providerError
deriving Repr, DecidableEq

/-- Modelled from the spec: the InvalidationExecutor of
`functions/cdn-cache-manager/queue-consumer.ts` (not in the snapshot)
classifies the provider result per member: on success it acknowledges every
handle; on partial rejection it acknowledges handles whose paths succeeded
and requests dead-lettering for handles whose paths were rejected; on a
whole-call transient failure it acknowledges nothing. -/
def executorAction (res : ProviderResult) (m : Message) : MsgAction :=
  match res with
  | ProviderResult.success _ => MsgAction.ack
  | ProviderResult.rejected failedPaths =>
      if m.path ∈ failedPaths then MsgAction.deadLetter else MsgAction.ack
  | ProviderResult.providerError => MsgAction.leave

/-- SQS semantics: the effect of a requested action on the actual queue.  An
acknowledgment deletes the message.  A dead-letter request can only be
fulfilled by the queue's redrive policy; on a queue with no dead-letter
queue configured (and a consumer role with no send permission on any other
queue) the message is merely left undeleted, so it follows `nackFate`. -/
def applyAction (q : QueueConfig) (a : MsgAction) (receiveCount : Nat) : MsgFate :=
  match a with
  | MsgAction.ack => MsgFate.acknowledged
  | MsgAction.deadLetter =>
      match q.deadLetterQueue with
      | some _ => MsgFate.deadLettered
      | none => nackFate q receiveCount
  | MsgAction.leave => nackFate q receiveCount

/-- Fate of one batch member: the executor's requested action interpreted on
the queue `q`. -/
def memberFate (q : QueueConfig) (res : ProviderResult) (m : Message) : MsgFate :=
  applyAction q (executorAction res m) m.receiveCount

/-- Maximum accepted path length at ingestion (provider-imposed bound). -/
def maxPathLength : Nat := 4000

/-- Modelled from the spec: the normalization step of the PathValidator of
`functions/cdn-cache-manager/api.ts` (not in the snapshot) collapses runs of
duplicate slashes. -/
def collapseSlashes : List Char → List Char
  | [] => []
  | [c] => [c]
  | c :: d :: rest =>
      if c = '/' ∧ d = '/' then collapseSlashes (d :: rest)
      else c :: collapseSlashes (d :: rest)

/-- Whether the string contains an ASCII control character. -/
def hasControlChar (s : String) : Bool :=
  s.toList.any fun c => c.toNat < 32 || c.toNat == 127

/-- Modelled from the spec: the PathValidator of
`functions/cdn-cache-manager/api.ts` (not in the snapshot).  It rejects the
empty string, strings beyond `maxPathLength` and strings holding control
characters; it collapses duplicate slashes and ensures a single leading
slash, keeping a trailing `*` wildcard intact (the wildcard is an ordinary
character here).  Deterministic and side-effect free. -/
def validatePath (raw : String) : Option String :=
  if raw.isEmpty then none
  else if maxPathLength < raw.length then none
  else if hasControlChar raw then none
  else
    let cs := collapseSlashes raw.toList
    let cs := if cs.head? = some '/' then cs else '/' :: cs
    some (String.mk cs)

/-- An HTTP response of the ingestion endpoint: the status code and the
delivery id returned on acceptance. -/
structure HttpResponse where
  status : Nat
  deliveryId : Option Nat
deriving Repr, DecidableEq

/-- Modelled from the spec: the POST /invalidate handler of
`functions/cdn-cache-manager/api.ts` (not in the snapshot).  It validates
the path first and answers 400 without enqueuing on failure; on a valid path
it enqueues exactly one message and answers 202 with the delivery id, unless
the queue is unavailable, in which case it answers 503 and enqueues nothing
(`enqueued` is the queue content, threaded explicitly). -/
def handleInvalidate (queueUp : Bool) (raw : String) (enqueued : List String) :
    HttpResponse × List String :=
  match validatePath raw with
  | none => ({ status := 400, deliveryId := none }, enqueued)
  | some p =>
      if queueUp then
        ({ status := 202, deliveryId := some enqueued.length }, enqueued ++ [p])
      else
        ({ status := 503, deliveryId := none }, enqueued)

/-- First index `i` (starting at `i0`, at most `i0 + fuel`) at which
`threshold ≤ cum i`; returns `i0 + fuel` when no index within the fuel
qualifies. -/
def firstHit (threshold : Nat) (cum : Nat → Nat) : Nat → Nat → Nat
  | i, 0 => i
  | i, fuel + 1 =>
      if threshold ≤ cum i then i else firstHit threshold cum (i + 1) fuel

/-- Modelled from the spec: the batch of the SQS event source closes at the
size trigger (the first second, counted from the first member's arrival, at
which the cumulative member count `cum` reaches `batchSize`) or at the
expiry of the batching window, whichever comes first.  The result is the
offset in seconds from the first member's arrival. -/
def closeOffset (cfg : SqsEventSourceConfig) (cum : Nat → Nat) : Nat :=
  firstHit cfg.batchSize cum 0 cfg.maxBatchingWindowSeconds

/-- One IAM policy statement: allowed actions over resources. -/
structure PolicyStatement where
  actions : List String
  resources : List String
deriving Repr, DecidableEq

/-- `queue.grantSendMessages(apiFunction)` at src/supabase-cdn.ts:156: the
aws-cdk-lib `Queue.grantSendMessages` grant attaches to the grantee exactly
the queue actions `sqs:SendMessage`, `sqs:GetQueueAttributes` and
`sqs:GetQueueUrl` on the queue's ARN. -/
def apiFunctionQueueStatement (queueArn : String) : PolicyStatement :=
  { actions := ["sqs:SendMessage", "sqs:GetQueueAttributes", "sqs:GetQueueUrl"],
    resources := [queueArn] }

/-- The `initialPolicy` of the QueueConsumer function at
src/supabase-cdn.ts:169-174: a single statement allowing
`cloudfront:CreateInvalidation` on the one configured distribution. -/
def queueConsumerInitialPolicy (accountId distributionId : String) : List PolicyStatement :=
  [{ actions := ["cloudfront:CreateInvalidation"],
     resources := ["arn:aws:cloudfront::" ++ accountId ++ ":distribution/" ++ distributionId] }]

/-- IAM semantics: whether a list of policy statements allows `action` on
`resource`. -/
def allowsAction (stmts : List PolicyStatement) (action resource : String) : Bool :=
  stmts.any fun st => st.actions.contains action && st.resources.contains resource

/-- TTL fields of a CloudFront cache policy. -/
structure CachePolicyConfig where
  minTtlSeconds : Nat
  maxTtlSeconds : Nat
  defaultTtlSeconds : Nat
deriving Repr, DecidableEq

/-- The cache policy for the Supabase API, `new cf.CachePolicy(this,
'CachePolicy', ...)` at src/supabase-cdn.ts:55-65: `minTtl` 0 seconds,
`maxTtl` 600 seconds, `defaultTtl` 1 second. -/
def apiCachePolicy : CachePolicyConfig :=
  { minTtlSeconds := 0, maxTtlSeconds := 600, defaultTtlSeconds := 1 }

/-- CloudFront semantics: the TTL assigned to a cached response.  When the
origin sends a caching header with TTL `t`, CloudFront clamps it into
`[minTtl, maxTtl]`; when the origin sends none, it uses `defaultTtl`. -/
def effectiveTtl (p : CachePolicyConfig) (originTtl : Option Nat) : Nat :=
  match originTtl with
  | none => p.defaultTtlSeconds
  | some t => min p.maxTtlSeconds (max p.minTtlSeconds t)

/-- CloudFront semantics: whether a request at `now` for a response cached
at `cachedAt` under policy `p` is still served from the cache. -/
def servedFromApiCache (p : CachePolicyConfig) (originTtl : Option Nat)
    (cachedAt now : Nat) : Bool :=
  now < cachedAt + effectiveTtl p originTtl

/-- One custom error response of the CloudFront distribution: the origin
HTTP status and how long the distribution caches the error. -/
structure ErrorResponse where
  httpStatus : Nat
  ttlSeconds : Nat
deriving Repr, DecidableEq

/-- The `errorResponses` of the distribution at src/supabase-cdn.ts:106-112:
statuses 500, 501, 502, 503 and 504, each cached for 10 seconds. -/
def distributionErrorResponses : List ErrorResponse :=
  [{ httpStatus := 500, ttlSeconds := 10 },
   { httpStatus := 501, ttlSeconds := 10 },
   { httpStatus := 502, ttlSeconds := 10 },
   { httpStatus := 503, ttlSeconds := 10 },
   { httpStatus := 504, ttlSeconds := 10 }]

/-- Error-caching TTL the distribution applies to an origin status, when the
status has a configured error response. -/
def errorCacheTtl (status : Nat) : Option Nat :=
  (distributionErrorResponses.find? fun e => e.httpStatus == status).map
    ErrorResponse.ttlSeconds

/-- CloudFront semantics: a repeated request for the same path at `now`,
while an error response for `status` cached at `cachedAt` is still within
its error-caching TTL, is served from the cache and does not reach the
origin. -/
def errorServedFromCache (status cachedAt now : Nat) : Bool :=
  match errorCacheTtl status with
  | some ttl => now < cachedAt + ttl
  | none => false

theorem dedupPaths_nodup (msgs : List Message) : (dedupPaths msgs).Nodup := by
  induction msgs with
  | nil => simp [dedupPaths]
  | cons m rest ih =>
      by_cases h : m.path ∈ dedupPaths rest
      · simpa [dedupPaths, h] using ih
      · rw [dedupPaths, if_neg h]
        exact List.Nodup.cons h ih

theorem mem_dedupPaths (p : String) (msgs : List Message) :
    p ∈ dedupPaths msgs ↔ ∃ m ∈ msgs, m.path = p := by
  induction msgs with
  | nil => simp [dedupPaths]
  | cons m rest ih =>
      by_cases h : m.path ∈ dedupPaths rest
      · simp only [dedupPaths, if_pos h, ih, List.mem_cons]
        constructor
        · rintro ⟨x, hx, hxp⟩
          exact ⟨x, Or.inr hx, hxp⟩
        · rintro ⟨x, hx | hx, hxp⟩
          · exact ih.mp (hxp ▸ hx ▸ h)
          · exact ⟨x, hx, hxp⟩
      · simp only [dedupPaths, if_neg h, List.mem_cons, ih]
        constructor
        · rintro (hp | ⟨x, hx, hxp⟩)
          · exact ⟨m, Or.inl rfl, hp.symm⟩
          · exact ⟨x, Or.inr hx, hxp⟩
        · rintro ⟨x, hx | hx, hxp⟩
          · exact Or.inl (hx ▸ hxp.symm)
          · exact Or.inr ⟨x, hx, hxp⟩

theorem dedupPaths_length_le (msgs : List Message) :
    (dedupPaths msgs).length ≤ msgs.length := by
  induction msgs with
  | nil => simp [dedupPaths]
  | cons m rest ih =>
      by_cases h : m.path ∈ dedupPaths rest
      · simp only [dedupPaths, if_pos h, List.length_cons]
        exact Nat.le_succ_of_le ih
      · simp only [dedupPaths, if_neg h, List.length_cons]
        exact Nat.succ_le_succ ih

theorem dedupPaths_eq_nil_iff (msgs : List Message) :
    dedupPaths msgs = [] ↔ msgs = [] := by
  induction msgs with
  | nil => simp [dedupPaths]
  | cons m rest ih =>
      by_cases h : m.path ∈ dedupPaths rest
      · constructor
        · intro he
          rw [dedupPaths, if_pos h] at he
          exact absurd (he ▸ h) (List.not_mem_nil m.path)
        · intro he
          exact absurd he (List.cons_ne_nil m rest)
      · simp [dedupPaths, if_neg h]

theorem firstHit_le (threshold : Nat) (cum : Nat → Nat) :
    ∀ (fuel i : Nat), firstHit threshold cum i fuel ≤ i + fuel := by
  intro fuel
  induction fuel with
  | zero => intro i; simp [firstHit]
  | succ f ih =>
      intro i
      rw [firstHit]
      by_cases h : threshold ≤ cum i
      · rw [if_pos h]; exact Nat.le_add_right i (f + 1)
      · rw [if_neg h]
        calc firstHit threshold cum (i + 1) f ≤ i + 1 + f := ih (i + 1)
          _ = i + (f + 1) := by omega

theorem firstHit_hit_or_exhausted (threshold : Nat) (cum : Nat → Nat) :
    ∀ (fuel i : Nat), threshold ≤ cum (firstHit threshold cum i fuel) ∨
      firstHit threshold cum i fuel = i + fuel := by
  intro fuel
  induction fuel with
  | zero => intro i; right; simp [firstHit]
  | succ f ih =>
      intro i
      rw [firstHit]
      by_cases h : threshold ≤ cum i
      · rw [if_pos h]; exact Or.inl h
      · rw [if_neg h]
        rcases ih (i + 1) with hhit | hex
        · exact Or.inl hhit
        · right; omega

theorem firstHit_min (threshold : Nat) (cum : Nat → Nat) :
    ∀ (fuel i j : Nat), i ≤ j → j < firstHit threshold cum i fuel →
      cum j < threshold := by
  intro fuel
  induction fuel with
  | zero =>
      intro i j hij hj
      rw [firstHit] at hj
      omega
  | succ f ih =>
      intro i j hij hj
      rw [firstHit] at hj
      by_cases h : threshold ≤ cum i
      · rw [if_pos h] at hj; omega
      · rw [if_neg h] at hj
        rcases Nat.eq_or_lt_of_le hij with rfl | hlt
        · omega
        · exact ih (i + 1) j hlt hj

/-- Claim C1: every batch handed to the InvalidationExecutor has a distinct
path set with 1 ≤ |paths| ≤ 100 (the configured MaxBatchSize), and the
executor is never invoked with an empty batch (an empty drain yields no
batch at all). -/
theorem claim_C1 (pending : List Message) (b : Batch)
    (hb : assembleBatch (drainedMessages queueConsumerEventSource pending) = some b) :
    (1 ≤ b.paths.length ∧ b.paths.length ≤ 100) ∧
      assembleBatch [] = none := by
  refine ⟨?_, rfl⟩
  cases hd : drainedMessages queueConsumerEventSource pending with
  | nil =>
      rw [hd] at hb
      exact absurd hb (by simp [assembleBatch])
  | cons m rest =>
      rw [hd] at hb
      have he : assembleBatch (m :: rest) =
          some { paths := dedupPaths (m :: rest), members := m :: rest } := rfl
      rw [he] at hb
      have hbb : b = { paths := dedupPaths (m :: rest), members := m :: rest } :=
        (Option.some_injective _ hb).symm
      subst hbb
      have hne : dedupPaths (m :: rest) ≠ [] := by
        intro h0
        exact List.cons_ne_nil m rest ((dedupPaths_eq_nil_iff (m :: rest)).mp h0)
      have hpos : 0 < (dedupPaths (m :: rest)).length := List.length_pos.mpr hne
      have h1 : (dedupPaths (m :: rest)).length ≤ (m :: rest).length :=
        dedupPaths_length_le _
      have h2 : (m :: rest).length ≤ 100 := by
        have h3 : (drainedMessages queueConsumerEventSource pending).length ≤ 100 := by
          simp only [drainedMessages, queueConsumerEventSource, List.length_take]
          exact Nat.min_le_left _ _
        rw [hd] at h3
        exact h3
      refine ⟨hpos, ?_⟩
      show (dedupPaths (m :: rest)).length ≤ 100
      omega

/-- Witness for claim C1 at a concrete one-message queue. -/
theorem claim_C1_witness :
    (1 ≤ (Batch.mk ["/a"] [Message.mk "/a" 1 1]).paths.length ∧
      (Batch.mk ["/a"] [Message.mk "/a" 1 1]).paths.length ≤ 100) ∧
      assembleBatch [] = none :=
  claim_C1 [Message.mk "/a" 1 1] (Batch.mk ["/a"] [Message.mk "/a" 1 1]) rfl

/-- Claim C2 counterexample: the queue at src/supabase-cdn.ts:141 is created
with default props, so it has no redrive policy; there is NO redelivery
bound beyond which a non-acknowledged message is moved to a dead-letter
store — whatever bound is proposed, a message past it is still merely
redelivered. -/
theorem claim_C2_counterexample :
    ¬ ∃ maxRedeliveries : Nat, ∀ receiveCount : Nat,
        maxRedeliveries < receiveCount →
        nackFate cacheManagerQueue receiveCount = MsgFate.deadLettered := by
  rintro ⟨r, h⟩
  have h1 := h (r + 1) (Nat.lt_succ_self r)
  have h2 : nackFate cacheManagerQueue (r + 1) = MsgFate.redelivered := rfl
  rw [h2] at h1
  exact MsgFate.noConfusion h1

/-- Claim C2 (amended): the queue has no dead-letter queue configured, so a
non-acknowledged message is never dead-lettered, whatever its redelivery
count: it is always redelivered (and an acknowledged one is removed), so no
message is lost to a dead-letter store nor stuck terminally — but nothing
ever bounds its redeliveries. -/
theorem claim_C2_amended (receiveCount : Nat) :
    nackFate cacheManagerQueue receiveCount = MsgFate.redelivered ∧
    msgFate cacheManagerQueue false receiveCount = MsgFate.redelivered ∧
    msgFate cacheManagerQueue true receiveCount = MsgFate.acknowledged ∧
    nackFate cacheManagerQueue receiveCount ≠ MsgFate.deadLettered := by
  refine ⟨rfl, rfl, rfl, ?_⟩
  intro h
  exact MsgFate.noConfusion h

/-- Witness for the amended claim C2 at a concrete redelivery count. -/
theorem claim_C2_amended_witness :
    nackFate cacheManagerQueue 101 = MsgFate.redelivered ∧
    msgFate cacheManagerQueue false 101 = MsgFate.redelivered ∧
    msgFate cacheManagerQueue true 101 = MsgFate.acknowledged ∧
    nackFate cacheManagerQueue 101 ≠ MsgFate.deadLettered :=
  claim_C2_amended 101

/-- Claim C3 counterexample: in a batch over paths /a, /b, /c where the
provider rejects /b, the message for /b is NOT dead-lettered — the queue has
no dead-letter queue, so the executor's dead-letter request leaves the
message undeleted and it is redelivered — while /a and /c are
acknowledged. -/
theorem claim_C3_counterexample :
    memberFate cacheManagerQueue (ProviderResult.rejected ["/b"]) (Message.mk "/b" 2 1) =
      MsgFate.redelivered ∧
    memberFate cacheManagerQueue (ProviderResult.rejected ["/b"]) (Message.mk "/b" 2 1) ≠
      MsgFate.deadLettered ∧
    memberFate cacheManagerQueue (ProviderResult.rejected ["/b"]) (Message.mk "/a" 1 1) =
      MsgFate.acknowledged ∧
    memberFate cacheManagerQueue (ProviderResult.rejected ["/b"]) (Message.mk "/c" 3 1) =
      MsgFate.acknowledged := by
  decide

/-- Claim C3 (amended): when the provider rejects a strict subset of a
batch's paths, the executor acknowledges exactly the messages whose paths
were accepted; the messages whose paths were rejected cannot be moved to a
dead-letter store (none is configured on the queue) and are instead
redelivered. -/
theorem claim_C3_amended (failedPaths : List String) (m : Message) :
    (m.path ∉ failedPaths →
      memberFate cacheManagerQueue (ProviderResult.rejected failedPaths) m =
        MsgFate.acknowledged) ∧
    (m.path ∈ failedPaths →
      memberFate cacheManagerQueue (ProviderResult.rejected failedPaths) m =
        MsgFate.redelivered) := by
  constructor
  · intro h
    simp [memberFate, executorAction, applyAction, h]
  · intro h
    simp [memberFate, executorAction, applyAction, h, nackFate, cacheManagerQueue]

/-- Witness for the amended claim C3 on the batch /a, /b with /b rejected. -/
theorem claim_C3_amended_witness :
    memberFate cacheManagerQueue (ProviderResult.rejected ["/b"]) (Message.mk "/a" 4 1) =
      MsgFate.acknowledged ∧
    memberFate cacheManagerQueue (ProviderResult.rejected ["/b"]) (Message.mk "/b" 5 1) =
      MsgFate.redelivered :=
  ⟨(claim_C3_amended ["/b"] (Message.mk "/a" 4 1)).1 (by decide),
   (claim_C3_amended ["/b"] (Message.mk "/b" 5 1)).2 (by decide)⟩

/-- Claim C4: with the configured event source (batchSize 100, batching
window 5 s), every batch closes within 5 seconds of its first member's
arrival; it closes at the size trigger (cumulative count `cum` reaching 100)
or at the window expiry, whichever fires first — at the close either the
size trigger has fired or the offset is exactly the window, and at every
earlier offset the size trigger had not yet fired. -/
theorem claim_C4 (cum : Nat → Nat) :
    closeOffset queueConsumerEventSource cum ≤ 5 ∧
    (100 ≤ cum (closeOffset queueConsumerEventSource cum) ∨
      closeOffset queueConsumerEventSource cum = 5) ∧
    ((List.range (closeOffset queueConsumerEventSource cum)).all
      fun j => decide (cum j < 100)) = true := by
  have e : closeOffset queueConsumerEventSource cum = firstHit 100 cum 0 5 := rfl
  rw [e]
  refine ⟨?_, ?_, ?_⟩
  · have h := firstHit_le 100 cum 5 0
    omega
  · have h := firstHit_hit_or_exhausted 100 cum 5 0
    rcases h with h | h
    · exact Or.inl h
    · exact Or.inr (by omega)
  · rw [List.all_eq_true]
    intro j hj
    rw [List.mem_range] at hj
    exact decide_eq_true (firstHit_min 100 cum 5 0 j (Nat.zero_le j) hj)

/-- Witness for claim C4 under a constant trickle of one message per second:
the size trigger never fires and the batch closes exactly at the 5-second
window. -/
theorem claim_C4_witness :
    closeOffset queueConsumerEventSource (fun _ => 1) ≤ 5 ∧
    (100 ≤ (1 : Nat) ∨ closeOffset queueConsumerEventSource (fun _ => 1) = 5) ∧
    ((List.range (closeOffset queueConsumerEventSource (fun _ => 1))).all
      fun _ => decide ((1 : Nat) < 100)) = true :=
  claim_C4 (fun _ => 1)

/-- Claim C5: when the provider call fails as a whole with a transient error
(rate limit or timeout), no delivery handle is acknowledged — every batch
member is left undeleted and redelivered, the count of acknowledged members
is zero — the message becomes visible again after the 30-second visibility
timeout, and a later drain containing the message yields a batch holding its
path again. -/
theorem claim_C5 (batchMembers : List Message) (m : Message)
    (pending : List Message) (b : Batch) (leasedAt : Nat)
    (hd : m ∈ drainedMessages queueConsumerEventSource pending)
    (hb : assembleBatch (drainedMessages queueConsumerEventSource pending) = some b) :
    memberFate cacheManagerQueue ProviderResult.providerError m = MsgFate.redelivered ∧
    batchMembers.countP
      (fun x => decide (memberFate cacheManagerQueue ProviderResult.providerError x =
        MsgFate.acknowledged)) = 0 ∧
    visibleAgainAt cacheManagerQueue leasedAt = leasedAt + 30 ∧
    m.path ∈ b.paths := by
  refine ⟨rfl, ?_, rfl, ?_⟩
  · rw [List.countP_eq_zero]
    intro a ha
    simp [memberFate, executorAction, applyAction, nackFate, cacheManagerQueue]
  · cases hdm : drainedMessages queueConsumerEventSource pending with
    | nil =>
        rw [hdm] at hd
        exact absurd hd (List.not_mem_nil m)
    | cons m0 rest =>
        rw [hdm] at hb hd
        have he : assembleBatch (m0 :: rest) =
            some { paths := dedupPaths (m0 :: rest), members := m0 :: rest } := rfl
        rw [he] at hb
        have hbb : b = { paths := dedupPaths (m0 :: rest), members := m0 :: rest } :=
          (Option.some_injective _ hb).symm
        rw [hbb]
        exact (mem_dedupPaths m.path (m0 :: rest)).mpr ⟨m, hd, rfl⟩

/-- Witness for claim C5 on a concrete one-message batch. -/
theorem claim_C5_witness :
    memberFate cacheManagerQueue ProviderResult.providerError (Message.mk "/a" 1 1) =
      MsgFate.redelivered ∧
    [Message.mk "/a" 1 1].countP
      (fun x => decide (memberFate cacheManagerQueue ProviderResult.providerError x =
        MsgFate.acknowledged)) = 0 ∧
    visibleAgainAt cacheManagerQueue 0 = 0 + 30 ∧
    (Message.mk "/a" 1 1).path ∈ (Batch.mk ["/a"] [Message.mk "/a" 1 1]).paths :=
  claim_C5 [Message.mk "/a" 1 1] (Message.mk "/a" 1 1) [Message.mk "/a" 1 1]
    (Batch.mk ["/a"] [Message.mk "/a" 1 1]) 0
    (List.mem_singleton.mpr rfl) rfl

/-- Claim C6: for every request to POST /invalidate — if the path validates,
the response is 202 with a delivery id and exactly one message is enqueued;
if validation fails, the response is 400 and nothing is enqueued; if the
queue is unavailable, the response is 503 and no partial state is created
(the queue content is unchanged). -/
theorem claim_C6 (queueUp : Bool) (raw p : String) (enqueued : List String) :
    (validatePath raw = some p →
      handleInvalidate true raw enqueued =
        ({ status := 202, deliveryId := some enqueued.length }, enqueued ++ [p])) ∧
    (validatePath raw = none →
      handleInvalidate queueUp raw enqueued =
        ({ status := 400, deliveryId := none }, enqueued)) ∧
    (validatePath raw = some p →
      handleInvalidate false raw enqueued =
        ({ status := 503, deliveryId := none }, enqueued)) := by
  refine ⟨?_, ?_, ?_⟩
  · intro h
    simp [handleInvalidate, h]
  · intro h
    simp [handleInvalidate, h]
  · intro h
    simp [handleInvalidate, h]

/-- Witness for claim C6: the concrete path /a is accepted (202, one
enqueue), rejected with 503 and no enqueue when the queue is down, and the
empty path is rejected with 400 and no enqueue. -/
theorem claim_C6_witness :
    handleInvalidate true "/a" [] =
      ({ status := 202, deliveryId := some 0 }, ["/a"]) ∧
    handleInvalidate false "/a" [] =
      ({ status := 503, deliveryId := none }, []) ∧
    handleInvalidate true "" [] =
      ({ status := 400, deliveryId := none }, []) :=
  ⟨(claim_C6 true "/a" "/a" []).1 rfl,
   (claim_C6 false "/a" "/a" []).2.2 rfl,
   (claim_C6 true "" "" []).2.1 rfl⟩

/-- Claim C7: when two messages carrying the same path are drained into one
batch, the deduplicated `paths` holds exactly one occurrence of that path,
and on a successful provider call both originating messages are
acknowledged. -/
theorem claim_C7 (msgs : List Message) (m1 m2 : Message) (invalidationId : Nat)
    (h1 : m1 ∈ msgs) (_h2 : m2 ∈ msgs) (_hp : m1.path = m2.path) :
    (dedupPaths msgs).count m1.path = 1 ∧
    memberFate cacheManagerQueue (ProviderResult.success invalidationId) m1 =
      MsgFate.acknowledged ∧
    memberFate cacheManagerQueue (ProviderResult.success invalidationId) m2 =
      MsgFate.acknowledged := by
  refine ⟨?_, rfl, rfl⟩
  exact List.count_eq_one_of_mem (dedupPaths_nodup msgs)
    ((mem_dedupPaths m1.path msgs).mpr ⟨m1, h1, rfl⟩)

/-- Witness for claim C7 on two messages both carrying /a. -/
theorem claim_C7_witness :
    (dedupPaths [Message.mk "/a" 1 1, Message.mk "/a" 2 1]).count
      (Message.mk "/a" 1 1).path = 1 ∧
    memberFate cacheManagerQueue (ProviderResult.success 9) (Message.mk "/a" 1 1) =
      MsgFate.acknowledged ∧
    memberFate cacheManagerQueue (ProviderResult.success 9) (Message.mk "/a" 2 1) =
      MsgFate.acknowledged :=
  claim_C7 [Message.mk "/a" 1 1, Message.mk "/a" 2 1]
    (Message.mk "/a" 1 1) (Message.mk "/a" 2 1) 9
    (by decide) (by decide) rfl

/-- Claim C8 counterexample: `grantSendMessages` does not grant
`sqs:SendMessage` only — the attached statement also carries the
queue-metadata actions `sqs:GetQueueAttributes` and `sqs:GetQueueUrl`. -/
theorem claim_C8_counterexample :
    (apiFunctionQueueStatement "arn:aws:sqs:queue").actions ≠ ["sqs:SendMessage"] ∧
    "sqs:GetQueueAttributes" ∈ (apiFunctionQueueStatement "arn:aws:sqs:queue").actions := by
  decide

/-- Claim C8 (amended): the ingestion function's grant on the shared queue
allows `sqs:SendMessage` but neither `sqs:ReceiveMessage` nor
`sqs:DeleteMessage` (only the metadata reads `sqs:GetQueueAttributes` and
`sqs:GetQueueUrl` besides), so ingestion can never acknowledge or remove
pending work; and any action the queue consumer's initialPolicy allows is
`cloudfront:CreateInvalidation` on the single configured distribution's
ARN. -/
theorem claim_C8_amended (queueArn accountId distributionId action resource : String)
    (h : allowsAction (queueConsumerInitialPolicy accountId distributionId)
      action resource = true) :
    allowsAction [apiFunctionQueueStatement queueArn] "sqs:SendMessage" queueArn = true ∧
    allowsAction [apiFunctionQueueStatement queueArn] "sqs:ReceiveMessage" queueArn = false ∧
    allowsAction [apiFunctionQueueStatement queueArn] "sqs:DeleteMessage" queueArn = false ∧
    action = "cloudfront:CreateInvalidation" ∧
    resource = "arn:aws:cloudfront::" ++ accountId ++ ":distribution/" ++ distributionId := by
  refine ⟨?_, ?_, ?_, ?_⟩
  · simp [allowsAction, apiFunctionQueueStatement]
  · simp [allowsAction, apiFunctionQueueStatement]
  · simp [allowsAction, apiFunctionQueueStatement]
  · simp [allowsAction, queueConsumerInitialPolicy] at h
    exact h

/-- Witness for the amended claim C8 at concrete account, distribution and
queue ARNs. -/
theorem claim_C8_witness :
    allowsAction [apiFunctionQueueStatement "arn:q"] "sqs:SendMessage" "arn:q" = true ∧
    allowsAction [apiFunctionQueueStatement "arn:q"] "sqs:ReceiveMessage" "arn:q" = false ∧
    allowsAction [apiFunctionQueueStatement "arn:q"] "sqs:DeleteMessage" "arn:q" = false ∧
    "cloudfront:CreateInvalidation" = "cloudfront:CreateInvalidation" ∧
    "arn:aws:cloudfront::123456789012:distribution/D1" =
      "arn:aws:cloudfront::" ++ "123456789012" ++ ":distribution/" ++ "D1" :=
  claim_C8_amended "arn:q" "123456789012" "D1" "cloudfront:CreateInvalidation"
    "arn:aws:cloudfront::123456789012:distribution/D1" (by decide)

/-- Claim C9: under the distribution's API cache policy (minTtl 0, maxTtl
600, defaultTtl 1) every cached response is assigned a TTL of at most 600
seconds — whatever caching header the origin sends — so a request arriving
600 seconds or more after a response was cached is no longer served from the
cache, even if no invalidation is ever issued. -/
theorem claim_C9 (originTtl : Option Nat) (cachedAt now : Nat)
    (h : cachedAt + 600 ≤ now) :
    effectiveTtl apiCachePolicy originTtl ≤ 600 ∧
    apiCachePolicy.defaultTtlSeconds = 1 ∧
    apiCachePolicy.minTtlSeconds = 0 ∧
    servedFromApiCache apiCachePolicy originTtl cachedAt now = false := by
  have hle : effectiveTtl apiCachePolicy originTtl ≤ 600 := by
    cases originTtl with
    | none => simp [effectiveTtl, apiCachePolicy]
    | some t =>
        simp only [effectiveTtl, apiCachePolicy]
        exact Nat.min_le_left _ _
  refine ⟨hle, rfl, rfl, ?_⟩
  simp only [servedFromApiCache, decide_eq_false_iff_not, not_lt]
  omega

/-- Witness for claim C9: an origin demanding a 10000-second TTL is clamped
to 600 and is not served from the cache 600 seconds after caching. -/
theorem claim_C9_witness :
    effectiveTtl apiCachePolicy (some 10000) ≤ 600 ∧
    apiCachePolicy.defaultTtlSeconds = 1 ∧
    apiCachePolicy.minTtlSeconds = 0 ∧
    servedFromApiCache apiCachePolicy (some 10000) 0 600 = false :=
  claim_C9 (some 10000) 0 600 (by decide)

/-- Claim C10: for every origin status among 500, 501, 502, 503 and 504 the
distribution caches the error response for 10 seconds, and a repeated
request within that window is served the cached error without reaching the
origin. -/
theorem claim_C10 (status cachedAt now : Nat)
    (hs : status ∈ [500, 501, 502, 503, 504])
    (hnow : now < cachedAt + 10) :
    errorCacheTtl status = some 10 ∧
    errorServedFromCache status cachedAt now = true := by
  have ht : errorCacheTtl status = some 10 := by
    simp only [List.mem_cons, List.mem_singleton, List.not_mem_nil, or_false] at hs
    rcases hs with rfl | rfl | rfl | rfl | rfl
    all_goals rfl
  refine ⟨ht, ?_⟩
  rw [errorServedFromCache, ht]
  exact decide_eq_true hnow

/-- Witness for claim C10: a repeated request 9 seconds after a cached 502
is served from the cache. -/
theorem claim_C10_witness :
    errorCacheTtl 502 = some 10 ∧
    errorServedFromCache 502 0 9 = true :=
  claim_C10 502 0 9 (by decide) (by decide)
